import Mathlib

/-
  Verification of the Torque2Warp10 webhook adapter.

  The repository contains three revisions of the same small Go program
  (src/main.go and two further files): an HTTP handler that translates
  Torque telemetry query parameters into Warp10 GTS records and forwards
  them.  This file embeds the data model and the request handling logic
  of the two gated revisions (the allow-list revision, called query below,
  and the single-user revision, called querySingleUser), together with the
  CSV key-directory loader, the startup allow-list parsing, and the
  outbound forwarding function sendToWarp10.

  Machine floats are modelled exactly: a float64 is represented by the
  rational number it denotes, as an unreduced integer fraction, and
  strconv.ParseFloat followed by a float64 multiplication is modelled by
  correctly rounded (round to nearest, ties to even, 53-bit significand)
  operations on those fractions, which is what the Go runtime computes.
  Infinities, NaN, hex-float syntax, underscore-separated digits and
  overflow past the largest finite double are outside the modelled range;
  none of the inputs considered here comes near them.
-/

set_option maxRecDepth 8000

/-- An unreduced fraction num / den with den > 0 by construction.
Used to represent exact values of float64 computations. -/
structure Frac where
  num : Int
  den : Int
deriving DecidableEq

/-- The constant 2 to the 64, used as the stride of the coarse phase of
the binary-exponent search. -/
def c64 : Int := 18446744073709551616

/-- Comparison p ≤ q of fractions with positive denominators. -/
def leFrac (p q : Frac) : Bool :=
  p.num * q.den ≤ q.num * p.den

/-- Fine phase of the exponent search: starting from p = 2 to the e with
p ≤ q, climb one binade at a time while 2 to the (e+1) still is ≤ q. -/
def expUp : Nat → Int → Frac → Frac → Int
  | 0, e, _, _ => e
  | n + 1, e, p, q =>
    if leFrac ⟨p.num * 2, p.den⟩ q then expUp n (e + 1) ⟨p.num * 2, p.den⟩ q else e

/-- Coarse upward phase of the exponent search, stride 64 binades. -/
def expUp64 : Nat → Int → Frac → Frac → Int × Frac
  | 0, e, p, _ => (e, p)
  | n + 1, e, p, q =>
    if leFrac ⟨p.num * c64, p.den⟩ q then expUp64 n (e + 64) ⟨p.num * c64, p.den⟩ q
    else (e, p)

/-- Coarse downward phase of the exponent search, stride 64 binades;
stops at the first e (multiple of -64) with 2 to the e ≤ q. -/
def expDown64 : Nat → Int → Frac → Frac → Int × Frac
  | 0, e, p, _ => (e, p)
  | n + 1, e, p, q =>
    if leFrac p q then (e, p) else expDown64 n (e - 64) ⟨p.num, p.den * c64⟩ q

/-- For q > 0 in the range of finite float64 values, the largest e with
2 to the e ≤ q.  (Below 2 to the -1280 the answer saturates, which the
subnormal clamp of roundDouble makes harmless: such values round to 0.) -/
def floorPow2 (q : Frac) : Int :=
  if leFrac ⟨1, 1⟩ q then
    let ep := expUp64 40 0 ⟨1, 1⟩ q
    expUp 64 ep.1 ep.2 q
  else
    let ep := expDown64 20 0 ⟨1, 1⟩ q
    expUp 64 ep.1 ep.2 q

/-- Round a fraction (with positive denominator) to the nearest integer,
ties to even. -/
def rneFrac (m : Frac) : Int :=
  let f := m.num.ediv m.den
  let r2 := 2 * (m.num - f * m.den)
  if r2 < m.den then f
  else if m.den < r2 then f + 1
  else if f % 2 = 0 then f else f + 1

/-- Correct rounding of an exact rational value to the IEEE-754 binary64
grid (round to nearest, ties to even, subnormals included, overflow not
modelled).  This is the value strconv.ParseFloat and every float64
arithmetic operation of the Go runtime produce. -/
def roundDouble (v : Frac) : Frac :=
  if v.num = 0 then ⟨0, 1⟩
  else
    let s : Frac := ⟨v.num.natAbs, v.den⟩
    let e := floorPow2 s
    let eEff := max e (-1022)
    let m : Frac :=
      if eEff ≤ 52 then ⟨s.num * Int.ofNat (2 ^ (52 - eEff).toNat), s.den⟩
      else ⟨s.num, s.den * Int.ofNat (2 ^ (eEff - 52).toNat)⟩
    let n := rneFrac m
    let r : Frac :=
      if eEff ≤ 52 then ⟨n, Int.ofNat (2 ^ (52 - eEff).toNat)⟩
      else ⟨n * Int.ofNat (2 ^ (eEff - 52).toNat), 1⟩
    if v.num < 0 then ⟨-r.num, r.den⟩ else r

/-- Exact float64 multiplication: the exact product, rounded back to the
binary64 grid. -/
def fmul (a b : Frac) : Frac :=
  roundDouble ⟨a.num * b.num, a.den * b.den⟩

/-- Go conversion int(f) of a float64 to an integer: truncation toward
zero. -/
def truncFrac (v : Frac) : Int :=
  if 0 ≤ v.num then v.num.ediv v.den else -((-v.num).ediv v.den)

/-- Leading decimal digits of a character list, and the rest. -/
def spanDigits : List Char → List Char × List Char
  | [] => ([], [])
  | c :: t =>
    if c.isDigit then
      let p := spanDigits t
      (c :: p.1, p.2)
    else ([], c :: t)

/-- Value of a list of decimal digit characters. -/
def digitsVal (l : List Char) : Nat :=
  l.foldl (fun n c => n * 10 + (c.toNat - 48)) 0

/-- The exact rational value sgn * mant * 10 to the exp10. -/
def mkDec (sgn : Int) (mant : Nat) (exp10 : Int) : Frac :=
  if 0 ≤ exp10 then ⟨sgn * Int.ofNat mant * Int.ofNat (10 ^ exp10.toNat), 1⟩
  else ⟨sgn * Int.ofNat mant, Int.ofNat (10 ^ (-exp10).toNat)⟩

/-- Exponent suffix of a decimal literal: optional sign, then at least
one digit, then end of input. -/
def parseExpTail (t : List Char) : Option Int :=
  let se : Int × List Char :=
    match t with
    | '+' :: u => (1, u)
    | '-' :: u => (-1, u)
    | _ => (1, t)
  let d := spanDigits se.2
  if d.1.isEmpty then none
  else if d.2.isEmpty then some (se.1 * Int.ofNat (digitsVal d.1)) else none

/-- Exact value of a decimal floating-point literal accepted by
strconv.ParseFloat: optional sign, digits with an optional fractional
part (at least one digit overall), and an optional decimal exponent.
Strings outside this grammar are rejected, matching the syntax-error
case of ParseFloat (in which Go returns the value 0 together with the
error).  The Inf / NaN / hex-float / underscore spellings that
ParseFloat additionally accepts are outside the modelled grammar. -/
def parseDec (s : String) : Option Frac :=
  let sgnRest : Int × List Char :=
    match s.data with
    | '+' :: t => (1, t)
    | '-' :: t => (-1, t)
    | _ => (1, s.data)
  let ip := spanDigits sgnRest.2
  let fp : List Char × List Char :=
    match ip.2 with
    | '.' :: t => spanDigits t
    | _ => ([], ip.2)
  if ip.1.isEmpty && fp.1.isEmpty then none
  else
    let mant := digitsVal (ip.1 ++ fp.1)
    match fp.2 with
    | [] => some (mkDec sgnRest.1 mant (0 - Int.ofNat fp.1.length))
    | 'e' :: t => (parseExpTail t).map fun ex => mkDec sgnRest.1 mant (ex - Int.ofNat fp.1.length)
    | 'E' :: t => (parseExpTail t).map fun ex => mkDec sgnRest.1 mant (ex - Int.ofNat fp.1.length)
    | _ => none

/-- strconv.ParseFloat(s, 64) on the decimal grammar: the exact decimal
value, correctly rounded to binary64.  none is the syntax-error case. -/
def parseFloat64 (s : String) : Option Frac :=
  (parseDec s).map roundDouble

/-- The altitude computation of the handler (src/unnamed/part_000 lines
82 to 86): i, err := strconv.ParseFloat(elev, 64) — on error i is 0 and
processing continues — followed by strconv.Itoa(int(i * 1000.0)). -/
def altitudeOf (s : String) : String :=
  toString (truncFrac (fmul ((parseFloat64 s).getD ⟨0, 1⟩) ⟨1000, 1⟩))


/-- GTS is a representation of a Geo Time Series (identical in all three
revisions). -/
structure GTS where
  TS : String
  Lat : String
  Long : String
  Elev : String
  Name : String
  Labels : String
  Value : String
deriving DecidableEq

/-- Print respects the format TS/LAT:LON/ELEV NAME then the labels in
braces then VALUE; identical in all three revisions. -/
def GTS.Print (gts : GTS) : String :=
  gts.TS ++ "/" ++ gts.Lat ++ ":" ++ gts.Long ++ "/" ++ gts.Elev ++ " " ++ gts.Name
    ++ "\x7b" ++ gts.Labels ++ "\x7d" ++ " " ++ gts.Value

/-- TorqueKey is the struct generated from the CSV. -/
structure TorqueKey where
  MetricName : String
  Tag : String
deriving DecidableEq

/-- The in-memory key directory, a Go map from field code to TorqueKey,
modelled extensionally. -/
def TorqueKeys := String → Option TorqueKey

/-- The empty Go map made by make(map[string]TorqueKey). -/
def emptyKeys : TorqueKeys := fun _ => none

/-- Go map assignment m[k] = v: overwrites any previous binding. -/
def insertKey (m : TorqueKeys) (k : String) (v : TorqueKey) : TorqueKeys :=
  fun k2 => if k2 = k then some v else m k2

/-- The TorqueKey carried by one three-column CSV row
(field code, metric name, tag). -/
def rowKey (r : String × String × String) : TorqueKey :=
  ⟨r.2.1, r.2.2⟩

/-- The CSV-loading loop of init: for key, each := range rawCSVdata, the
row with index 0 (the header) is skipped, every other row is written to
the map, so a repeated field code keeps the last row. -/
def loadKeys (rows : List (String × String × String)) : TorqueKeys :=
  rows.enum.foldl
    (fun m ir => if ir.1 ≠ 0 then insertKey m ir.2.1 (rowKey ir.2) else m)
    emptyKeys

/-- r.URL.Query().Get(k): the first value bound to key k, or the empty
string when k is absent.  A request is modelled as the parsed query, a
list of key and value pairs. -/
def getParam (params : List (String × String)) (k : String) : String :=
  match params.find? (fun p => p.1 == k) with
  | some p => p.2
  | none => ""

/-- Distinct keys of the query, first occurrence kept.  The Go statement
for key := range query visits every distinct key exactly once in an
unspecified order; this model fixes first-occurrence order, which no
claim depends on. -/
def dedupKeysAux : List String → List String → List String
  | [], _ => []
  | k :: t, seen =>
    if seen.contains k then dedupKeysAux t seen else k :: dedupKeysAux t (k :: seen)

/-- Distinct keys of a key list, first occurrence kept. -/
def dedupKeys (l : List String) : List String :=
  dedupKeysAux l []

/-- stringInSlice from src/unnamed/part_000: membership of str in list. -/
def stringInSlice (str : String) : List String → Bool
  | [] => false
  | v :: t => if v = str then true else stringInSlice str t

/-- Label assembly of the handler loop: if the directory tag is empty the
labels are id=deviceId, otherwise id=deviceId followed by a comma and the
tag. -/
def mkLabels (id tag : String) : String :=
  if tag = "" then "id=" ++ id else "id=" ++ id ++ "," ++ tag

/-- The translation loop shared by the gated revisions: one GTS per
distinct query key found in the key directory, in the order fixed by
dedupKeys; unrecognized keys are skipped. -/
def buildRecords (keys : TorqueKeys) (params : List (String × String))
    (id lon lat alt ts : String) : List GTS :=
  (dedupKeys (params.map Prod.fst)).filterMap fun k =>
    (keys k).map fun val =>
      ⟨ts, lat, lon, alt, val.MetricName, mkLabels id val.Tag, getParam params k⟩

/-- What one outbound POST returned: resp is the response status when a
response object came back (none models a nil *http.Response), err the
transport error if any. -/
structure NetCall where
  resp : Option Nat
  err : Option String
deriving DecidableEq

/-- How one sendToWarp10 call ends. -/
inductive SendOutcome where
  | ok : SendOutcome
  | nilDeref : SendOutcome
  | panicStatus : Nat → SendOutcome
deriving DecidableEq

/-- Outcome of sendToWarp10 together with whether the err-logging branch
ran. -/
structure SendResult where
  outcome : SendOutcome
  errLogged : Bool
deriving DecidableEq

/-- sendToWarp10 from the gated revisions: resp, err := client.Do(req);
the code first evaluates resp.StatusCode — a nil-pointer dereference [panic]
whenever the transport failed and resp is nil — then panics on a non-200
status, and only then would it reach the err logging branch. -/
def sendToWarp10 (call : NetCall) : SendResult :=
  match call.resp with
  | none => ⟨.nilDeref, false⟩
  | some status => if status ≠ 200 then ⟨.panicStatus status, false⟩ else ⟨.ok, call.err.isSome⟩

/-- True when the forwarding call came back without panicking. -/
def sendOk (r : SendResult) : Bool :=
  match r.outcome with
  | .ok => true
  | _ => false

/-- Result of one inbound request: either a written response (forwarded
records, status, content type, body) or a panic escaping the handler
while forwarding (records sent before the failure, the failing record,
and the kind of panic), in which case no response body is written. -/
inductive HandlerResult where
  | response : List GTS → Nat → String → String → HandlerResult
  | panicked : List GTS → GTS → SendOutcome → HandlerResult
deriving DecidableEq

/-- The records the handler built and attempted to forward. -/
def HandlerResult.records : HandlerResult → List GTS
  | .response recs _ _ _ => recs
  | .panicked sent failed _ => sent ++ [failed]

/-- The acknowledgment written by every non-panicking path: Go defaults
the status to 200 on the first Write, the handler sets Content-Type
text/html and writes the body OK!. -/
def okResponse (recs : List GTS) : HandlerResult :=
  .response recs 200 "text/html" "OK!"

/-- The forwarding loop: sendToWarp10 for each record in turn; the first
panicking call aborts the handler, otherwise the acknowledgment is
written after the loop. -/
def forwardRecords (net : GTS → NetCall) (recs : List GTS) : HandlerResult :=
  match recs.find? (fun g => !(sendOk (sendToWarp10 (net g)))) with
  | some g =>
    .panicked (recs.takeWhile fun g2 => sendOk (sendToWarp10 (net g2))) g
      (sendToWarp10 (net g)).outcome
  | none => okResponse recs

/-- The handler of src/unnamed/part_000 (the allow-list revision).
First gate: if stringInSlice(eml, users) the request is acknowledged
with no records (the code logs unauthorized on this branch).  Second
gate: an empty longitude kff1005, latitude kff1006 or elevation kff1010
is acknowledged with no records.  Otherwise one record per recognized
key is built and forwarded. -/
def query (users : List String) (keys : TorqueKeys) (net : GTS → NetCall)
    (params : List (String × String)) : HandlerResult :=
  if stringInSlice (getParam params "eml") users then okResponse []
  else if getParam params "kff1005" = "" ∨ getParam params "kff1006" = ""
      ∨ getParam params "kff1010" = "" then okResponse []
  else
    forwardRecords net
      (buildRecords keys params (getParam params "id") (getParam params "kff1005")
        (getParam params "kff1006") (altitudeOf (getParam params "kff1010"))
        (getParam params "time"))

/-- The handler of src/unnamed/part_001 (the single-user revision): one
combined gate — empty geolocation or eml equal to the configured user is
acknowledged with no records — and the timestamp is the time parameter
with the suffix 000 (milliseconds to microseconds). -/
def querySingleUser (user : String) (keys : TorqueKeys) (net : GTS → NetCall)
    (params : List (String × String)) : HandlerResult :=
  if getParam params "kff1005" = "" ∨ getParam params "kff1006" = ""
      ∨ getParam params "kff1010" = "" ∨ getParam params "eml" = user then okResponse []
  else
    forwardRecords net
      (buildRecords keys params (getParam params "id") (getParam params "kff1005")
        (getParam params "kff1006") (altitudeOf (getParam params "kff1010"))
        (getParam params "time" ++ "000"))

/-- strings.Split(s, comma) of the Go standard library: the substrings
between commas; for an empty input it returns the one-element list
holding the empty string, never an empty list. -/
def splitGoAux : List Char → List Char → List String
  | [], acc => [String.mk acc.reverse]
  | c :: t, acc =>
    if c = ',' then String.mk acc.reverse :: splitGoAux t [] else splitGoAux t (c :: acc)

/-- strings.Split(s, comma). -/
def splitGo (s : String) : List String :=
  splitGoAux s.data []

/-- The allow-list built by init from the ALLOWED_USERS environment
variable: every split element is appended to users. -/
def loadUsers (env : String) : List String :=
  splitGo env

/-- The guard of the fatal branch of init: len(users) == 0 triggers
log.Panicln with No User registered. -/
def initFatalUsers (env : String) : Bool :=
  (loadUsers env).length == 0


/-- A destination that answers every POST with status 200. -/
def netOK : GTS → NetCall := fun _ => ⟨some 200, none⟩

/-- A destination that answers every POST with status 500. -/
def netFail500 : GTS → NetCall := fun _ => ⟨some 500, none⟩

/-- A small CSV table: header row, then kfx1 to metric rpm with empty
tag and kfx2 to metric speed with tag type=sensor. -/
def demoRows : List (String × String × String) :=
  [("Code", "Metric", "Tag"), ("kfx1", "rpm", ""), ("kfx2", "speed", "type=sensor")]

/-- The key directory loaded from demoRows. -/
def demoKeys : TorqueKeys :=
  loadKeys demoRows

/-- A CSV table in which the field code kfx1 appears twice after the
header. -/
def demoDupRows : List (String × String × String) :=
  [("Code", "Metric", "Tag"), ("kfx1", "rpm", ""), ("kfx1", "rpm2", "a=b")]

/-- A well-formed request: geolocated, one recognized field kfx1. -/
def demoParams : List (String × String) :=
  [("kff1005", "3.0"), ("kff1006", "45.0"), ("kff1010", "12.345"),
   ("id", "7"), ("time", "100"), ("kfx1", "3000")]

/-- C1: the claim says a caller identity failing the allow-list check
produces zero records while one passing it proceeds to forwarding.  The
code does the opposite: stringInSlice(eml, users) true — the caller IS
on the allow-list — takes the no-op branch (logged as unauthorized),
and a caller NOT on the allow-list proceeds to translation and
forwarding.  This theorem evaluates both sides of the inversion. -/
theorem allowlist_gate_inverted :
  query ["alice@example.com"] demoKeys netOK
      (("eml", "alice@example.com") :: demoParams)
    = HandlerResult.response [] 200 "text/html" "OK!"
  ∧ query ["alice@example.com"] demoKeys netOK
      (("eml", "mallory@evil.example") :: demoParams)
    = HandlerResult.response
        [⟨"100", "45.0", "3.0", "12345", "rpm", "id=7", "3000"⟩] 200 "text/html" "OK!" := by
  constructor
  · decide
  · decide

/-- C2: the serialized body is exactly
TS slash LAT colon LON slash ELEV space NAME brace LABELS brace space
VALUE, and the given concrete record serializes to exactly the expected
string. -/
theorem gts_print_format :
  (∀ gts : GTS, gts.Print = gts.TS ++ "/" ++ gts.Lat ++ ":" ++ gts.Long ++ "/" ++ gts.Elev
      ++ " " ++ gts.Name ++ "\x7b" ++ gts.Labels ++ "\x7d" ++ " " ++ gts.Value)
  ∧ GTS.Print ⟨"1500000000000000", "45.0", "3.0", "12345", "speed", "id=42", "87"⟩
      = "1500000000000000/45.0:3.0/12345 speed\x7bid=42\x7d 87" :=
  ⟨fun _ => rfl, by decide⟩

/-- C3: whenever any of the three geolocation parameters kff1005,
kff1006, kff1010 is absent or empty, the handler produces zero Output
Records and responds with the fixed acknowledgment. -/
theorem missing_geo_param_yields_no_records
    (users : List String) (keys : TorqueKeys) (net : GTS → NetCall)
    (params : List (String × String))
    (h : getParam params "kff1005" = "" ∨ getParam params "kff1006" = ""
      ∨ getParam params "kff1010" = "") :
    query users keys net params = HandlerResult.response [] 200 "text/html" "OK!" := by
  unfold query okResponse
  split <;> rfl

/-- Witness for C3 at a concrete request with kff1005 absent. -/
theorem missing_geo_param_yields_no_records_witness :
    query ["a@x"] demoKeys netOK [("kff1006", "45.0"), ("kff1010", "12.345")]
      = HandlerResult.response [] 200 "text/html" "OK!" :=
  missing_geo_param_yields_no_records ["a@x"] demoKeys netOK
    [("kff1006", "45.0"), ("kff1010", "12.345")] (Or.inl (by decide))

/-- C7: the claim says the handler always answers 200 text/html OK!
even when forwarding fails.  In the code a non-200 response from the
datastore raises log.Panicln inside sendToWarp10 before the handler
reaches its final write, so no acknowledgment is written on that path;
on an all-success run the acknowledgment is written. -/
theorem forwarding_error_panics_no_ack :
  query ["x"] demoKeys netFail500 demoParams
    = HandlerResult.panicked [] ⟨"100", "45.0", "3.0", "12345", "rpm", "id=7", "3000"⟩
        (SendOutcome.panicStatus 500)
  ∧ query ["x"] demoKeys netOK demoParams
    = HandlerResult.response
        [⟨"100", "45.0", "3.0", "12345", "rpm", "id=7", "3000"⟩] 200 "text/html" "OK!" := by
  constructor
  · decide
  · decide

/-- Helper: strings.Split never returns an empty slice. -/
theorem splitGoAux_ne_nil (l : List Char) : ∀ acc : List Char, splitGoAux l acc ≠ [] := by
  induction l with
  | nil => intro acc; simp [splitGoAux]
  | cons c t ih =>
    intro acc
    unfold splitGoAux
    split
    · simp
    · exact ih (c :: acc)

/-- C8: the claim says an empty allow-list is fatal at startup.  In the
code users is built from strings.Split(env, comma), which returns the
one-element slice containing the empty string when env is empty, so
len(users) == 0 is never true and the fatal branch is dead for every
environment value: the process starts serving. -/
theorem empty_allowlist_not_fatal :
    loadUsers "" = [""] ∧ ∀ env : String, initFatalUsers env = false := by
  constructor
  · decide
  · intro env
    unfold initFatalUsers loadUsers splitGo
    cases hs : splitGoAux env.data [] with
    | nil => exact absurd hs (splitGoAux_ne_nil env.data [])
    | cons a t => simp [hs]

/-- C10: in sendToWarp10 the status code of the response is read before
the transport-error check, so when client.Do fails (resp nil, err non
nil) the function hits the nil dereference and the err-logging branch
never runs. -/
theorem sendToWarp10_reads_status_before_err :
    ∀ e : String, sendToWarp10 ⟨none, some e⟩ = ⟨SendOutcome.nilDeref, false⟩ :=
  fun _ => rfl

/-- C4: the elevation parameter is parsed as a float64, multiplied by
1000.0 and truncated toward zero — 12.345 gives 12345, 0 gives 0,
12.3456 gives 12345 (not 12346) and -12.3456 gives -12345 (toward
zero, not the floor) — a string outside the numeric grammar leaves the
value at zero and the request is still processed (here with
non-numeric latitude, longitude and time as well, which are never
validated). -/
theorem elevation_parse_truncate_lenient :
  altitudeOf "12.345" = "12345"
  ∧ altitudeOf "0" = "0"
  ∧ altitudeOf "12.3456" = "12345"
  ∧ altitudeOf "-12.3456" = "-12345"
  ∧ (∀ s : String, parseDec s = none → altitudeOf s = "0")
  ∧ query ["x"] demoKeys netOK
      [("kff1005", "east"), ("kff1006", "north"), ("kff1010", "abc"),
       ("id", "7"), ("time", "soon"), ("kfx1", "3000")]
    = HandlerResult.response
        [⟨"soon", "north", "east", "0", "rpm", "id=7", "3000"⟩] 200 "text/html" "OK!" := by
  refine ⟨by decide, by decide, by decide, by decide, ?_, by decide⟩
  intro s h
  unfold altitudeOf parseFloat64
  rw [h]
  rfl

/-- Witness for C4 on the syntax-error clause at the concrete
non-numeric elevation xyz. -/
theorem elevation_parse_truncate_lenient_witness :
    parseDec "xyz" = none ∧ altitudeOf "xyz" = "0" :=
  ⟨by decide, elevation_parse_truncate_lenient.2.2.2.2.1 "xyz" (by decide)⟩

/-- Helper: membership in the translation loop output determines every
field of the record: the positional fields are the loop arguments, the
metric name and labels come from the directory entry of some recognized
key, and the value is the raw parameter of that key. -/
theorem buildRecords_mem (keys : TorqueKeys) (params : List (String × String))
    (id lon lat alt ts : String) (g : GTS)
    (hg : g ∈ buildRecords keys params id lon lat alt ts) :
    ∃ k tk, keys k = some tk ∧
      g = ⟨ts, lat, lon, alt, tk.MetricName, mkLabels id tk.Tag, getParam params k⟩ := by
  unfold buildRecords at hg
  rw [List.mem_filterMap] at hg
  obtain ⟨k, _, hmap⟩ := hg
  cases hkk : keys k with
  | none => rw [hkk] at hmap; simp at hmap
  | some tk =>
    rw [hkk] at hmap
    simp only [Option.map_some'] at hmap
    exact ⟨k, tk, hkk, (Option.some.inj hmap).symm⟩

/-- Helper: every record the handler attempted to forward was built by
the translation loop. -/
theorem mem_records_forwardRecords (net : GTS → NetCall) (recs : List GTS) (g : GTS)
    (hg : g ∈ (forwardRecords net recs).records) : g ∈ recs := by
  unfold forwardRecords at hg
  cases hfind : recs.find? (fun g2 => !(sendOk (sendToWarp10 (net g2)))) with
  | none =>
    rw [hfind] at hg
    exact hg
  | some g0 =>
    rw [hfind] at hg
    unfold HandlerResult.records at hg
    rw [List.mem_append] at hg
    cases hg with
    | inl hmem => exact (List.takeWhile_sublist _).subset hmem
    | inr hmem =>
      simp only [List.mem_singleton] at hmem
      subst hmem
      exact List.mem_of_find?_eq_some hfind

/-- Helper: every record of a query run was built by the translation
loop with the handler's positional arguments. -/
theorem query_records_sub (users : List String) (keys : TorqueKeys) (net : GTS → NetCall)
    (params : List (String × String)) (g : GTS)
    (hg : g ∈ (query users keys net params).records) :
    g ∈ buildRecords keys params (getParam params "id") (getParam params "kff1005")
      (getParam params "kff1006") (altitudeOf (getParam params "kff1010"))
      (getParam params "time") := by
  unfold query at hg
  split at hg
  · simp [okResponse, HandlerResult.records] at hg
  · split at hg
    · simp [okResponse, HandlerResult.records] at hg
    · exact mem_records_forwardRecords _ _ _ hg

/-- Helper: the same for the single-user revision, whose timestamp
argument carries the 000 suffix. -/
theorem querySingleUser_records_sub (user : String) (keys : TorqueKeys) (net : GTS → NetCall)
    (params : List (String × String)) (g : GTS)
    (hg : g ∈ (querySingleUser user keys net params).records) :
    g ∈ buildRecords keys params (getParam params "id") (getParam params "kff1005")
      (getParam params "kff1006") (altitudeOf (getParam params "kff1010"))
      (getParam params "time" ++ "000") := by
  unfold querySingleUser at hg
  split at hg
  · simp [okResponse, HandlerResult.records] at hg
  · exact mem_records_forwardRecords _ _ _ hg

/-- C5: every Output Record carries the device-identity label first:
labels are exactly id= then the device id when the directory tag is
empty, and id= then the device id, a comma and the tag otherwise; with
the concrete instances id 42 with empty tag and with tag
type=sensor. -/
theorem labels_prepend_identity :
  (∀ (keys : TorqueKeys) (params : List (String × String)) (id lon lat alt ts : String)
      (g : GTS), g ∈ buildRecords keys params id lon lat alt ts →
      ∃ k tk, keys k = some tk ∧
        g.Labels = if tk.Tag = "" then "id=" ++ id else "id=" ++ id ++ "," ++ tk.Tag)
  ∧ mkLabels "42" "" = "id=42"
  ∧ mkLabels "42" "type=sensor" = "id=42,type=sensor" := by
  refine ⟨?_, by decide, by decide⟩
  intro keys params id lon lat alt ts g hg
  obtain ⟨k, tk, hk, hgeq⟩ := buildRecords_mem keys params id lon lat alt ts g hg
  refine ⟨k, tk, hk, ?_⟩
  rw [hgeq]
  rfl

/-- Witness for C5 at a concrete record built for key kfx2 (directory
tag type=sensor) with device id 42. -/
theorem labels_prepend_identity_witness :
    ∃ k tk, demoKeys k = some tk ∧
      (⟨"1500000000000000", "45.0", "3.0", "12345", "speed", "id=42,type=sensor", "87"⟩
          : GTS).Labels
        = if tk.Tag = "" then "id=" ++ "42" else "id=" ++ "42" ++ "," ++ tk.Tag :=
  labels_prepend_identity.1 demoKeys [("kfx2", "87")] "42" "3.0" "45.0" "12345"
    "1500000000000000"
    ⟨"1500000000000000", "45.0", "3.0", "12345", "speed", "id=42,type=sensor", "87"⟩
    (by decide)

/-- C9: in both gated revisions every forwarded record's timestamp is a
pure function of the time parameter alone — the raw value in the
allow-list revision, the value with the 000 suffix (milliseconds to
microseconds) in the single-user revision — and latitude and longitude
are the raw kff1006 and kff1005 parameter strings unmodified. -/
theorem timestamp_latlon_passthrough :
  (∀ (users : List String) (keys : TorqueKeys) (net : GTS → NetCall)
      (params : List (String × String)) (g : GTS),
      g ∈ (query users keys net params).records →
      g.TS = getParam params "time" ∧ g.Lat = getParam params "kff1006"
        ∧ g.Long = getParam params "kff1005")
  ∧ (∀ (user : String) (keys : TorqueKeys) (net : GTS → NetCall)
      (params : List (String × String)) (g : GTS),
      g ∈ (querySingleUser user keys net params).records →
      g.TS = getParam params "time" ++ "000" ∧ g.Lat = getParam params "kff1006"
        ∧ g.Long = getParam params "kff1005") := by
  constructor
  · intro users keys net params g hg
    obtain ⟨k, tk, hk, hgeq⟩ :=
      buildRecords_mem _ _ _ _ _ _ _ _ (query_records_sub users keys net params g hg)
    rw [hgeq]
    exact ⟨rfl, rfl, rfl⟩
  · intro user keys net params g hg
    obtain ⟨k, tk, hk, hgeq⟩ :=
      buildRecords_mem _ _ _ _ _ _ _ _ (querySingleUser_records_sub user keys net params g hg)
    rw [hgeq]
    exact ⟨rfl, rfl, rfl⟩

/-- Witness for C9 at the concrete successful run of demoParams. -/
theorem timestamp_latlon_passthrough_witness :
    (⟨"100", "45.0", "3.0", "12345", "rpm", "id=7", "3000"⟩ : GTS).TS
        = getParam demoParams "time"
      ∧ (⟨"100", "45.0", "3.0", "12345", "rpm", "id=7", "3000"⟩ : GTS).Lat
        = getParam demoParams "kff1006"
      ∧ (⟨"100", "45.0", "3.0", "12345", "rpm", "id=7", "3000"⟩ : GTS).Long
        = getParam demoParams "kff1005" :=
  timestamp_latlon_passthrough.1 ["x"] demoKeys netOK demoParams
    ⟨"100", "45.0", "3.0", "12345", "rpm", "id=7", "3000"⟩ (by decide)

/-- The last row of a CSV row list bearing field code c (search of the
reversed list). -/
def lastEntry (l : List (String × String × String)) (c : String) :
    Option (String × String × String) :=
  l.reverse.find? (fun r => r.1 == c)

/-- Helper: skipping the index-0 header in the enumerated fold is the
same as folding the plain insertions over the tail. -/
theorem enumFrom_foldl_ins (t : List (String × String × String)) :
    ∀ (n : Nat) (m : TorqueKeys), n ≠ 0 →
      (List.enumFrom n t).foldl
          (fun m2 ir => if ir.1 ≠ 0 then insertKey m2 ir.2.1 (rowKey ir.2) else m2) m
        = t.foldl (fun m2 r => insertKey m2 r.1 (rowKey r)) m := by
  induction t with
  | nil => intro n m _; rfl
  | cons r t ih =>
    intro n m hn
    simp only [List.enumFrom, List.foldl_cons]
    rw [if_pos hn]
    exact ih (n + 1) _ (Nat.succ_ne_zero n)

/-- Helper: the Go-map insertion fold looked up at c yields the last
inserted row with field code c, or falls back to the initial map. -/
theorem foldl_ins_apply (l : List (String × String × String)) :
    ∀ (m : TorqueKeys) (c : String),
      l.foldl (fun m2 r => insertKey m2 r.1 (rowKey r)) m c
        = match lastEntry l c with
          | some r => some (rowKey r)
          | none => m c := by
  induction l with
  | nil => intro m c; rfl
  | cons r t ih =>
    intro m c
    rw [List.foldl_cons, ih]
    unfold lastEntry
    rw [List.reverse_cons, List.find?_append]
    cases hf : t.reverse.find? (fun r2 => r2.1 == c) with
    | some r2 => simp [hf]
    | none =>
      simp only [hf, Option.none_orElse]
      unfold insertKey
      by_cases hc : r.1 = c
      · simp [List.find?, hc]
      · simp [List.find?, hc, beq_eq_false_iff_ne.mpr hc, Ne.symm hc]

/-- Helper: loading the CSV then looking up c gives the TorqueKey of
the last post-header row with field code c, or none. -/
theorem loadKeys_lastEntry (rows : List (String × String × String)) (c : String) :
    loadKeys rows c = (lastEntry (rows.drop 1) c).map rowKey := by
  unfold loadKeys
  cases rows with
  | nil => rfl
  | cons r t =>
    rw [List.enum_cons]
    simp only [List.foldl_cons, if_neg (by decide : ¬(0 : Nat) ≠ 0)]
    rw [enumFrom_foldl_ins t 1 emptyKeys (by decide), foldl_ins_apply]
    simp only [List.drop_succ_cons, List.drop_zero]
    cases h : lastEntry t c <;> rfl

/-- Helper: the first value bound to j is unchanged by appending a pair
with a different key. -/
theorem getParam_append_ne (params : List (String × String)) (k v j : String)
    (h : j ≠ k) : getParam (params ++ [(k, v)]) j = getParam params j := by
  unfold getParam
  rw [List.find?_append]
  cases hf : params.find? (fun p => p.1 == j) with
  | some p => simp [hf]
  | none => simp [hf, List.find?, beq_eq_false_iff_ne.mpr (Ne.symm h)]

/-- Helper: appending one key that the directory does not recognize
leaves the filtered translation output unchanged, whatever keys were
already seen. -/
theorem filterMap_dedupAux_append_none {α : Type} (f : String → Option α) (k : String)
    (hf : f k = none) (xs : List String) :
    ∀ seen, ((dedupKeysAux (xs ++ [k]) seen).filterMap f)
      = (dedupKeysAux xs seen).filterMap f := by
  induction xs with
  | nil =>
    intro seen
    cases hc : seen.contains k <;> simp [dedupKeysAux, hc, hf]
  | cons x xs ih =>
    intro seen
    simp only [List.cons_append, dedupKeysAux]
    cases hx : seen.contains x with
    | true => simp only [if_pos rfl]; exact ih seen
    | false => simp [List.filterMap_cons, ih (x :: seen)]

/-- Helper: the whole translation loop ignores an appended unrecognized
query parameter. -/
theorem buildRecords_append_unknown (keys : TorqueKeys) (params : List (String × String))
    (id lon lat alt ts k v : String) (hk : keys k = none) :
    buildRecords keys (params ++ [(k, v)]) id lon lat alt ts
      = buildRecords keys params id lon lat alt ts := by
  unfold buildRecords dedupKeys
  have hmap : (params ++ [(k, v)]).map Prod.fst = params.map Prod.fst ++ [k] := by
    simp
  rw [hmap]
  have hfe : (fun k2 => (keys k2).map fun val =>
        (⟨ts, lat, lon, alt, val.MetricName, mkLabels id val.Tag,
          getParam (params ++ [(k, v)]) k2⟩ : GTS))
      = fun k2 => (keys k2).map fun val =>
        (⟨ts, lat, lon, alt, val.MetricName, mkLabels id val.Tag,
          getParam params k2⟩ : GTS) := by
    funext k2
    by_cases h2 : k2 = k
    · subst h2; rw [hk]; rfl
    · rw [getParam_append_ne params k v k2 h2]
  rw [hfe]
  exact filterMap_dedupAux_append_none _ k (by rw [hk]; rfl) _ []

/-- C6: looking up any field code after the load returns exactly the
metric name and tag of the last post-header row bearing that code, and
none when the code never occurs (the header row is skipped, the last
write wins); and a query parameter whose key the directory does not
contain produces no Output Record and leaves the handler's behavior on
the other keys untouched. -/
theorem keyDirectory_lookup_and_unknown_keys :
  (∀ (rows : List (String × String × String)) (c : String),
      loadKeys rows c = (lastEntry (rows.drop 1) c).map rowKey)
  ∧ (∀ (users : List String) (keys : TorqueKeys) (net : GTS → NetCall)
      (params : List (String × String)) (k v : String), keys k = none →
      k ∉ (["eml", "kff1005", "kff1006", "kff1010", "id", "time"] : List String) →
      query users keys net (params ++ [(k, v)]) = query users keys net params) := by
  constructor
  · exact loadKeys_lastEntry
  · intro users keys net params k v hk hmem
    simp only [List.mem_cons, List.not_mem_nil, or_false, not_or] at hmem
    obtain ⟨h1, h2, h3, h4, h5, h6⟩ := hmem
    unfold query
    rw [getParam_append_ne params k v "eml" (Ne.symm h1),
      getParam_append_ne params k v "kff1005" (Ne.symm h2),
      getParam_append_ne params k v "kff1006" (Ne.symm h3),
      getParam_append_ne params k v "kff1010" (Ne.symm h4),
      getParam_append_ne params k v "id" (Ne.symm h5),
      getParam_append_ne params k v "time" (Ne.symm h6),
      buildRecords_append_unknown keys params _ _ _ _ _ k v hk]

/-- Witness for C6: a duplicated field code resolves to the later row,
a missing code resolves to none, and appending an unknown query
parameter does not change the handler result on demoParams. -/
theorem keyDirectory_lookup_and_unknown_keys_witness :
    loadKeys demoDupRows "kfx1" = some ⟨"rpm2", "a=b"⟩
      ∧ loadKeys demoDupRows "zzz" = none
      ∧ query ["x"] demoKeys netOK (demoParams ++ [("junk", "1")])
        = query ["x"] demoKeys netOK demoParams := by
  refine ⟨?_, ?_, ?_⟩
  · exact (keyDirectory_lookup_and_unknown_keys.1 demoDupRows "kfx1").trans (by decide)
  · exact (keyDirectory_lookup_and_unknown_keys.1 demoDupRows "zzz").trans (by decide)
  · exact keyDirectory_lookup_and_unknown_keys.2 ["x"] demoKeys netOK demoParams "junk" "1"
      (by decide) (by decide)
